import Mathlib

/-!
Verification development for a small Python repository consisting of a
web-scraping helper library (`myapp1.py`: `WebScraper`, `AdvancedScraper`,
`ScrapingPipeline`) and a JSON-backed grocery-shop application (`myapp.py`:
`GroceryShop`).

The Python code is shallowly embedded: dictionaries become insertion-ordered
association lists, exceptions become `Except`/`Option`, the network and the
browser become explicit oracle functions, and the wall clock becomes an
explicit parameter.  Library calls made by the code (`requests`,
`BeautifulSoup`, `urllib.parse.urljoin`, `pandas.DataFrame`, Selenium) are
modelled according to their documented behaviour where a claim depends on
them.
-/

deriving instance DecidableEq for Except

namespace Scraper

/-- A parsed HTML element, reduced to its descendant text nodes in document
order (the only thing the scrapers read from an element). -/
structure Elem where
  texts : List String
deriving DecidableEq

/-- Python `str.strip()` at the character level: drop leading and trailing
whitespace. -/
def trimChars (l : List Char) : List Char :=
  ((l.dropWhile Char.isWhitespace).reverse.dropWhile Char.isWhitespace).reverse

/-- Python `str.strip()` on a string. -/
def pyStrip (s : String) : String :=
  String.mk (trimChars s.data)

/-- BeautifulSoup `Tag.get_text(strip=True)`: strip each descendant string,
drop the ones that are whitespace-only, and join the rest. -/
def getTextStrip (e : Elem) : String :=
  String.join (e.texts.filterMap fun s =>
    let t := pyStrip s
    if t = "" then none else some t)

/-- A field value in a scraped record: Python `None`, a single string, or a
list of strings. -/
inductive FieldValue
  | absent
  | scalar (s : String)
  | seq (xs : List String)
deriving DecidableEq

/-- A scraped record: the Python dict built by the extractors, as an
insertion-ordered association list with unique keys. -/
abbrev Record := List (String × FieldValue)

/-- The per-field branch shared by `scrape_basic_data` and
`scrape_dynamic_content`: no match gives `None`, exactly one match gives that
element's text, several matches give the list of texts. -/
def classifyWith {α : Type} (txt : α → String) : List α → FieldValue
  | [] => .absent
  | [e] => .scalar (txt e)
  | es => .seq (es.map txt)

/-- `WebScraper.scrape_basic_data(url, selectors)`.  The combined
fetch-and-parse prelude (`get_page` + `BeautifulSoup`) is modelled as
`page : Except String (String → List Elem)`: an error means the surrounding
`except` returns `None`, and a success is the soup, modelled as the function
`select` from a CSS selector to its matches in document order. -/
def scrape_basic_data (page : Except String (String → List Elem))
    (selectors : List (String × String)) : Option Record :=
  match page with
  | .error _ => none
  | .ok select => some (selectors.map fun fs => (fs.1, classifyWith getTextStrip (select fs.2)))

/-- An HTML `<table>` as `scrape_table` walks it: the list of its `<tr>` rows
(`table.find_all('tr')`), each row the list of its `<th>`/`<td>` cells. -/
structure HTMLTable where
  rows : List (List Elem)

/-- The result of a successful `scrape_table`: the pandas `DataFrame` reduced
to its column labels and its rows of strings. -/
structure TableResult where
  headers : List String
  dataRows : List (List String)
deriving DecidableEq

/-- `pd.DataFrame(rows, columns=headers)`: pandas infers the column count as
the length of the longest row (shorter rows are padded with `NaN`, padding not
represented here) and raises `ValueError` when `headers` has a different
length; that raise is caught by `scrape_table`'s `except`, hence `none`. -/
def mkDataFrame (rows : List (List String)) (headers : List String) : Option TableResult :=
  if headers.length = rows.foldl (fun acc r => max acc r.length) 0 then
    some ⟨headers, rows⟩
  else none

/-- The header extraction of `scrape_table`: `table.find('tr')` is the first
row (or `None`, leaving `headers = []`), and the header cells are the trimmed
texts of all its `th`/`td` children. -/
def tableHeaders (rows : List (List Elem)) : List String :=
  match rows with
  | [] => []
  | r :: _ => r.map getTextStrip

/-- The data-row extraction of `scrape_table`: every row after the first
(`table.find_all('tr')[1:]`) becomes its list of trimmed cell texts
(`row_data`), and rows yielding zero cells are dropped (`if row_data:`). -/
def tableDataRows (rows : List (List Elem)) : List (List String) :=
  (rows.drop 1).filterMap fun r =>
    if (r.map getTextStrip).isEmpty then none else some (r.map getTextStrip)

/-- `WebScraper.scrape_table(url, table_selector)`.  `page` is the
fetch-and-parse outcome; inside it, `none` means `soup.select_one` found no
table.  `if headers and rows:` guards the `DataFrame` construction. -/
def scrape_table (page : Except String (Option HTMLTable)) : Option TableResult :=
  match page with
  | .error _ => none
  | .ok none => none
  | .ok (some t) =>
    if (tableHeaders t.rows).isEmpty || (tableDataRows t.rows).isEmpty then none
    else mkDataFrame (tableDataRows t.rows) (tableHeaders t.rows)

/-- An anchor element as `scrape_links` reads it: the `href` and `title`
attributes (`none` = attribute not present) and its text nodes. -/
structure Anchor where
  href : Option String
  texts : List String
  title : Option String

/-- One entry of the list returned by `scrape_links`. -/
structure LinkRecord where
  url : String
  text : String
  title : String
deriving DecidableEq

/-- Split a character list at the first `"://"`, returning the scheme part
and the remainder, or `none` when no `"://"` occurs. -/
def splitScheme : List Char → Option (List Char × List Char)
  | [] => none
  | ':' :: '/' :: '/' :: rest => some ([], rest)
  | c :: rest =>
    match splitScheme rest with
    | none => none
    | some (pre, post) => some (c :: pre, post)

/-- Split a character list on `'/'` (like `str.split("/")`, keeping empty
segments). -/
def splitOnSlash : List Char → List (List Char)
  | [] => [[]]
  | c :: rest =>
    let r := splitOnSlash rest
    if c = '/' then [] :: r
    else
      match r with
      | [] => [[c]]
      | seg :: segs => (c :: seg) :: segs

/-- Rejoin path segments with `'/'`. -/
def joinSegs : List (List Char) → List Char
  | [] => []
  | [s] => s
  | s :: rest => s ++ '/' :: joinSegs rest

/-- RFC 3986 dot-segment removal over already-split path segments, the merge
step of `urllib` relative-reference resolution. -/
def removeDotSegments (segs : List (List Char)) : List (List Char) :=
  segs.foldl (fun acc s =>
    if s = ['.'] then acc
    else if s = ['.', '.'] then acc.dropLast
    else acc ++ [s]) []

/-- `urllib.parse.urljoin(base, url)` restricted to the reference shapes the
library exercises: empty references keep the base, scheme-absolute references
are returned unchanged, protocol-relative ones adopt the base's scheme,
root-relative ones replace the base's whole path, and relative paths are
merged onto the base path (drop the last base segment, append, remove dot
segments).  Query/fragment splitting is not modelled. -/
def urljoin (base url : String) : String :=
  if url = "" then base
  else
    match splitScheme url.data with
    | some _ => url
    | none =>
      match splitScheme base.data with
      | none => url
      | some (bscheme, brest) =>
        match splitOnSlash brest with
        | [] => url
        | host :: bsegs =>
          match url.data with
          | '/' :: '/' :: _ => String.mk (bscheme ++ ':' :: url.data)
          | '/' :: relrest =>
            String.mk (bscheme ++ (':' :: '/' :: '/' :: host) ++
              '/' :: joinSegs (removeDotSegments (splitOnSlash relrest)))
          | _ =>
            String.mk (bscheme ++ (':' :: '/' :: '/' :: host) ++
              '/' :: joinSegs (removeDotSegments (bsegs.dropLast ++ splitOnSlash url.data)))

/-- `WebScraper.scrape_links(url, link_selector, base_url)`.  `page` is the
fetch-and-parse outcome (the `except` branch returns `[]`); `anchors` are the
elements matched by `link_selector` in document order.  `if href:` and
`if base_url:` are Python truthiness tests, so a missing attribute and an
empty string both fail them; `link.get('title', '')` defaults to `""`.
`linkOfAnchor` is the loop body: what one matched anchor contributes. -/
def linkOfAnchor (base_url : Option String) (a : Anchor) : Option LinkRecord :=
  match a.href with
  | none => none
  | some h =>
    if h = "" then none
    else
      some ⟨(match base_url with
          | some b => if b = "" then h else urljoin b h
          | none => h),
        getTextStrip ⟨a.texts⟩, a.title.getD ""⟩

def scrape_links (page : Except String (List Anchor)) (base_url : Option String) :
    List LinkRecord :=
  match page with
  | .error _ => []
  | .ok anchors => anchors.filterMap (linkOfAnchor base_url)

/-- An HTTP response as `get_page` observes it. -/
structure Response where
  status : Nat
  body : String
deriving DecidableEq

/-- The outcome of one `self.session.get(url, timeout=10)` call (redirects
already followed by `requests`). -/
inductive NetResult
  | transportError (msg : String)
  | response (r : Response)

/-- `requests.Response.raise_for_status()`: raises `HTTPError` (a
`RequestException`) exactly when the status code is in 400..599; informational
and redirect statuses do not raise. -/
def raise_for_status (r : Response) : Option String :=
  if 400 ≤ r.status ∧ r.status < 600 then some ("HTTP Error " ++ toString r.status)
  else none

/-- What one run of `get_page` did: how many attempts were made, how many
politeness sleeps ran (one `time.sleep(random.uniform(*delay_range))` per
attempt), the `time.sleep(2 ** attempt)` backoff durations in order, and the
final outcome (`.ok none` is Python's implicit `None` when `retries = 0`). -/
structure FetchTrace where
  attempts : Nat
  politeSleeps : Nat
  backoffSleeps : List Nat
  result : Except String (Option Response)
deriving DecidableEq

/-- The `for attempt in range(retries)` loop of `WebScraper.get_page`, over
the list of 0-based attempt indices still to run (`range(retries)` at entry,
so `attempt == retries - 1` — the final attempt — is exactly the iteration
with an empty tail).  Each iteration sleeps the politeness delay, issues the
request, returns the response if `raise_for_status` passes, and on
`RequestException` either re-raises (final attempt) or sleeps `2 ** attempt`
and retries. -/
def getPageLoop (net : Nat → NetResult) : List Nat → FetchTrace
  | [] => ⟨0, 0, [], .ok none⟩
  | attempt :: rest =>
    let outcome : Except String Response :=
      match net attempt with
      | .transportError e => .error e
      | .response r =>
        match raise_for_status r with
        | some e => .error e
        | none => .ok r
    match outcome with
    | .ok r => ⟨1, 1, [], .ok (some r)⟩
    | .error e =>
      match rest with
      | [] => ⟨1, 1, [], .error e⟩
      | next :: more =>
        let restTrace := getPageLoop net (next :: more)
        ⟨restTrace.attempts + 1, restTrace.politeSleeps + 1,
          2 ^ attempt :: restTrace.backoffSleeps, restTrace.result⟩

/-- `WebScraper.get_page(url, retries)`, with `net attempt` the outcome of the
request made on (0-based) attempt `attempt` (an empty range — `retries = 0` —
falls through the loop and returns Python's implicit `None`). -/
def get_page (net : Nat → NetResult) (retries : Nat) : FetchTrace :=
  getPageLoop net (List.range retries)

/-- A live DOM element as Selenium hands it to `scrape_dynamic_content`. -/
structure DynElem where
  raw : String
deriving DecidableEq

/-- Selenium `WebElement.text`: the rendered text of the element, which the
WebDriver get-element-text algorithm returns with leading and trailing
whitespace trimmed. -/
def seleniumText (e : DynElem) : String := pyStrip e.raw

/-- The browser state observed by one `scrape_dynamic_content` call: whether
`driver.get(url)` succeeds, whether an element matching `wait_selector`
appears within the 10-second explicit wait, and the outcome of
`find_elements` per selector (which may raise). -/
structure DynPage where
  navOk : Bool
  waitOk : Bool
  find : String → Except String (List DynElem)

/-- The value stored for one field by `scrape_dynamic_content`: the per-field
`try` turns any extraction error into `None`, otherwise the single/multiple/
absent classification is applied to the found elements. -/
def dynFieldValue (res : Except String (List DynElem)) : FieldValue :=
  match res with
  | .error _ => .absent
  | .ok es => classifyWith seleniumText es

/-- `AdvancedScraper.scrape_dynamic_content(url, wait_selector,
data_selectors)`.  A navigation failure or a `TimeoutException` from the
explicit wait is caught by the outer `except`, returning `None`; otherwise
every declared field is filled by `dynFieldValue`. -/
def scrape_dynamic_content (page : DynPage) (data_selectors : List (String × String)) :
    Option Record :=
  if page.navOk = false then none
  else if page.waitOk = false then none
  else some (data_selectors.map fun fs => (fs.1, dynFieldValue (page.find fs.2)))

/-- One Python dict update `data[k] = v`: replace the value in place when the
key exists, otherwise append the new pair. -/
def dictSet (r : Record) (k : String) (v : FieldValue) : Record :=
  if r.any (fun p => p.1 == k) then r.map fun p => if p.1 == k then (k, v) else p
  else r ++ [(k, v)]

/-- The stamping in `scrape_multiple_pages`: `data['scraped_url'] = url`
followed by `data['scraped_at'] = datetime.now().isoformat()`. -/
def stampRecord (r : Record) (url ts : String) : Record :=
  dictSet (dictSet r "scraped_url" (.scalar url)) "scraped_at" (.scalar ts)

/-- The `for i, url in enumerate(urls, 1)` loop of
`ScrapingPipeline.scrape_multiple_pages`, starting at position `i`.
`f` is `scraper_func` (it may raise, return `None`, or return a dict) and
`now i` is the `datetime.now().isoformat()` string observed while processing
the `i`-th URL.  `if data:` is a truthiness test, so `None` and the empty
dict are both skipped; a raise is caught, logged and skipped (`continue`). -/
def scrapePagesFrom (f : String → Except String (Option Record)) (now : Nat → String) :
    List String → Nat → List Record
  | [], _ => []
  | url :: rest, i =>
    match f url with
    | .error _ => scrapePagesFrom f now rest (i + 1)
    | .ok none => scrapePagesFrom f now rest (i + 1)
    | .ok (some r) =>
      if r.isEmpty then scrapePagesFrom f now rest (i + 1)
      else stampRecord r url (now i) :: scrapePagesFrom f now rest (i + 1)

/-- `ScrapingPipeline.scrape_multiple_pages(urls, scraper_func)`: the list of
records the run returns (Python enumerates the URLs from 1). -/
def scrape_multiple_pages (f : String → Except String (Option Record)) (now : Nat → String)
    (urls : List String) : List Record :=
  scrapePagesFrom f now urls 1

/-- `self.results.extend(results)` at the end of `scrape_multiple_pages`: the
pipeline's ResultSet after a run. -/
def extendResults (results newRecs : List Record) : List Record :=
  results ++ newRecs

/-- `ScrapingPipeline.save_to_csv(filename, data)` restricted to dict records
(the shape the pipeline produces, taking the `DataFrame.to_csv` branch).  The
written file is modelled as its path and the data serialized into it; `none`
means no file was created (`if not data: return`). -/
def save_to_csv (output_dir filename : String) (data : List Record) :
    Option (String × List Record) :=
  if data.isEmpty then none
  else some (output_dir ++ "/" ++ filename, data)

/-- `ScrapingPipeline.save_to_json(filename, data)`: `json.dump(data, f)` runs
unconditionally — the function has no empty-data guard — so a file is always
created and written. -/
def save_to_json (output_dir filename : String) (data : List Record) :
    Option (String × List Record) :=
  some (output_dir ++ "/" ++ filename, data)

/-- Concrete browser-state fixture for witness theorems: one selector whose
extraction raises, one matching two elements, every other selector matching
none. -/
def dynPageFx : DynPage :=
  ⟨true, true, fun s =>
    if s = ".bad" then .error "stale element reference"
    else if s = ".items" then .ok [⟨" x "⟩, ⟨"y"⟩]
    else .ok []⟩

/-- Concrete scraper-function fixture for witness theorems: succeeds on
`"A"` and `"C"`, raises on every other URL. -/
def scraperFnFx : String → Except String (Option Record) := fun u =>
  if u = "A" then .ok (some [("title", .scalar "first")])
  else if u = "C" then .ok (some [("title", .scalar "third")])
  else .error "connection error"

/-- Concrete clock fixture for witness theorems. -/
def nowFx : Nat → String := fun i => "2024-01-01T00:00:0" ++ toString i

/-- Network fixture for witness theorems: every attempt fails at the
transport level. -/
def netFailFx : Nat → NetResult := fun _ => .transportError "connection refused"

/-- Network fixture: every attempt yields an HTTP 304 (non-2xx, non-error)
response. -/
def net304Fx : Nat → NetResult := fun _ => .response ⟨304, ""⟩

/-- Network fixture: every attempt yields an HTTP 500 response. -/
def net500Fx : Nat → NetResult := fun _ => .response ⟨500, "oops"⟩

/-- Table fixture: header `["Name", "Price"]` and two data rows. -/
def tableGoodFx : HTMLTable :=
  ⟨[[⟨["Name"]⟩, ⟨["Price"]⟩], [⟨["Apple"]⟩, ⟨["1.00"]⟩], [⟨["Bread"]⟩, ⟨["2.50"]⟩]]⟩

/-- Table fixture: header row only, no data rows. -/
def tableHeaderOnlyFx : HTMLTable :=
  ⟨[[⟨["Name"]⟩, ⟨["Price"]⟩]]⟩

/-- Anchor fixtures: one relative link, one anchor with no `href`. -/
def anchorsFx : List Anchor :=
  [⟨some "page.html", ["Link"], none⟩, ⟨none, ["no href"], some "t"⟩]

end Scraper

namespace Grocery

/-- `Product` from `myapp.py` as the running program holds it.  `price` is a
Python float, modelled as `ℚ` (no claim depends on floating-point rounding);
`stock` and quantities are Python ints. -/
structure Product where
  id : String
  name : String
  price : ℚ
  stock : Int
  category : String
deriving DecidableEq

/-- One entry of a sale record's `items` list. -/
structure SaleItem where
  name : String
  quantity : Int
  price : ℚ
  total : ℚ
deriving DecidableEq

/-- One entry of `sales_history`. -/
structure SaleRecord where
  timestamp : String
  items : List SaleItem
  total : ℚ
deriving DecidableEq

/-- The in-memory state of a `GroceryShop`: `self.products` (a dict keyed by
product id) and `self.sales_history`. -/
structure Shop where
  products : List (String × Product)
  sales_history : List SaleRecord
deriving DecidableEq

/-- `product_id in self.products` / `self.products[product_id]`. -/
def lookupProduct (ps : List (String × Product)) (pid : String) : Option Product :=
  (ps.find? fun p => p.1 == pid).map Prod.snd

/-- `product.stock -= quantity` mutates the `Product` object stored inside
`self.products`, so the change survives a later exception. -/
def setStock (ps : List (String × Product)) (pid : String) (newStock : Int) :
    List (String × Product) :=
  ps.map fun p => if p.1 == pid then (p.1, { p.2 with stock := newStock }) else p

/-- The `for product_id, quantity in items` loop of
`GroceryShop.process_sale`, threading the (mutated-in-place) products, the
running total and the accumulated sale items.  An unknown product id or
insufficient stock raises `ValueError`, leaving the products as mutated so
far. -/
def processSaleLoop :
    List (String × Product) → List (String × Int) → ℚ → List SaleItem →
      List (String × Product) × Except String (ℚ × List SaleItem)
  | products, [], total, acc => (products, .ok (total, acc))
  | products, (pid, qty) :: rest, total, acc =>
    match lookupProduct products pid with
    | none => (products, .error ("Product " ++ pid ++ " not found"))
    | some p =>
      if qty ≤ p.stock then
        processSaleLoop (setStock products pid (p.stock - qty)) rest
          (total + p.price * (qty : ℚ))
          (acc ++ [⟨p.name, qty, p.price, p.price * (qty : ℚ)⟩])
      else (products, .error ("Insufficient stock for " ++ p.name))

/-- The complete observable outcome of one `process_sale` call: the shop state
afterwards, the returned record or raised `ValueError`, and whether
`save_data` was reached. -/
structure SaleOutcome where
  shop : Shop
  result : Except String SaleRecord
  saved : Bool
deriving DecidableEq

/-- `GroceryShop.process_sale(items)`, with `now` the
`datetime.now().isoformat()` value.  On a `ValueError` the stock decrements
already performed are kept, nothing is appended to `sales_history`, and
`save_data` is never reached (`saved = false`). -/
def process_sale (shop : Shop) (now : String) (items : List (String × Int)) : SaleOutcome :=
  match processSaleLoop shop.products items 0 [] with
  | (ps, .error e) => ⟨⟨ps, shop.sales_history⟩, .error e, false⟩
  | (ps, .ok (total, saleItems)) =>
    ⟨⟨ps, shop.sales_history ++ [⟨now, saleItems, total⟩]⟩, .ok ⟨now, saleItems, total⟩, true⟩

/-- Shop fixture for witness theorems: one product with stock 10, empty sales
history. -/
def shopFx : Shop :=
  ⟨[("p1", ⟨"p1", "Apples", 2, 10, "Fruit"⟩)], []⟩

end Grocery

namespace GroceryLoad

/-- A JSON value as `json.load` returns it (objects as insertion-ordered
association lists; the decoder keeps the last duplicate key, so keys are
assumed unique here). -/
inductive JValue
  | null
  | bool (b : Bool)
  | num (q : ℚ)
  | str (s : String)
  | arr (xs : List JValue)
  | obj (fields : List (String × JValue))

/-- `d.get(k)` on a decoded JSON object. -/
def jGet (fields : List (String × JValue)) (k : String) : Option JValue :=
  (fields.find? fun p => p.1 == k).map Prod.snd

/-- `float(x)` applied to a JSON-decoded value: numbers and booleans convert;
numeric strings also convert in Python but are not modelled (no claim depends
on them); everything else raises. -/
def pyFloat : JValue → Option ℚ
  | .num q => some q
  | .bool b => some (if b then 1 else 0)
  | _ => none

/-- `int(x)` applied to a JSON-decoded value: numbers truncate toward zero and
booleans convert; integral strings also convert in Python but are not
modelled; everything else raises. -/
def pyInt : JValue → Option Int
  | .num q => some (q.num.tdiv q.den)
  | .bool b => some (if b then 1 else 0)
  | _ => none

/-- A `Product` as reconstructed by `load_data`: `id`, `name` and `category`
are stored as-is (Python performs no conversion on them), `price` goes through
`float(...)` and `stock` through `int(...)`. -/
structure LoadedProduct where
  id : JValue
  name : JValue
  price : ℚ
  stock : Int
  category : JValue

/-- `Product.from_dict(data)` followed by `Product.__init__`: each of the five
keys is looked up (a missing key raises `KeyError`), then `float(price)` and
`int(stock)` run (raising on inconvertible values). -/
def from_dict (v : JValue) : Option LoadedProduct :=
  match v with
  | .obj fs =>
    (match jGet fs "id", jGet fs "name", jGet fs "price", jGet fs "stock",
        jGet fs "category" with
    | some i, some n, some p, some s, some c =>
      match pyFloat p, pyInt s with
      | some price, some stock => some ⟨i, n, price, stock, c⟩
      | _, _ => none
    | _, _, _, _, _ => none)
  | _ => none

/-- The dict comprehension
`{k: Product.from_dict(v) for k, v in data.get('products', {}).items()}`:
it is built in full before `self.products` is assigned, and any raise inside
it aborts the whole comprehension. -/
def loadProducts : List (String × JValue) → Option (List (String × LoadedProduct))
  | [] => some []
  | p :: rest =>
    match from_dict p.2 with
    | none => none
    | some pr =>
      match loadProducts rest with
      | none => none
      | some prs => some ((p.1, pr) :: prs)

/-- The body of `load_data`'s `try` after `json.load` succeeded with value
`d`: `data.get('products', {})` requires `d` to be a dict (otherwise
`AttributeError`), `.items()` requires the `products` value to be a dict, each
product goes through `Product.from_dict`, and `sales_history` defaults to `[]`
and is stored without validation.  `none` means some step raised. -/
def extractShopData (d : JValue) :
    Option (List (String × LoadedProduct) × JValue) :=
  match d with
  | .obj fs =>
    (match (jGet fs "products").getD (.obj []) with
    | .obj pfs =>
      (match loadProducts pfs with
      | some prods => some (prods, (jGet fs "sales_history").getD (.arr []))
      | none => none)
    | _ => none)
  | _ => none

/-- File-content fixture for witness theorems: well-formed JSON whose
`products` map holds one record that is missing the required `name` (and
other) keys. -/
def badFileFieldsFx : List (String × JValue) :=
  [("products", .obj [("x", .obj [("id", .str "x")])]), ("sales_history", .arr [])]

/-- The observable state of `grocery_data.json` when `load_data` runs. -/
inductive FileState
  | missing
  | readFailure
  | parseFailure
  | parsed (d : JValue)

/-- The shop fields `load_data` is responsible for. -/
structure LoadedShop where
  products : List (String × LoadedProduct)
  sales_history : JValue

/-- `GroceryShop.load_data`, starting from the freshly initialised shop
(`products = {}`, `sales_history = []` from `__init__`).  A missing file skips
the body; the bare `except` catches an unreadable file, malformed JSON, and
every raise inside the `try`, resetting both fields to empty. -/
def load_data (fs : FileState) : LoadedShop :=
  match fs with
  | .missing => ⟨[], .arr []⟩
  | .readFailure => ⟨[], .arr []⟩
  | .parseFailure => ⟨[], .arr []⟩
  | .parsed d =>
    match extractShopData d with
    | some (ps, sh) => ⟨ps, sh⟩
    | none => ⟨[], .arr []⟩

end GroceryLoad

namespace Scraper

theorem lookup_map_pairs {β : Type} (g : String → String → β) :
    ∀ (l : List (String × String)), (l.map Prod.fst).Nodup →
      ∀ f s, (f, s) ∈ l →
        (l.map fun p => (p.1, g p.1 p.2)).lookup f = some (g f s) := by
  intro l
  induction l with
  | nil => intro _ f s hmem; cases hmem
  | cons hd tl ih =>
    intro hnd f s hmem
    simp only [List.map_cons, List.nodup_cons] at hnd
    rw [List.map_cons]
    by_cases hf : f = hd.1
    · have hpair : (f, s) = hd := by
        rcases List.mem_cons.mp hmem with h | h
        · exact h
        · exact absurd (hf ▸ List.mem_map.mpr ⟨(f, s), h, rfl⟩) hnd.1
      rw [← hpair]
      simp [List.lookup]
    · have hmem' : (f, s) ∈ tl := by
        rcases List.mem_cons.mp hmem with h | h
        · exact absurd (congrArg Prod.fst h) hf
        · exact h
      have : (f == hd.1) = false := beq_eq_false_iff_ne.mpr hf
      simp only [List.lookup, this]
      exact ih hnd.2 f s hmem'

theorem classifyWith_pair {α : Type} (txt : α → String) (a b : α) (t : List α) :
    classifyWith txt (a :: b :: t) = .seq ((a :: b :: t).map txt) := rfl

theorem classifyWith_of_two_le {α : Type} (txt : α → String) (es : List α)
    (h : 2 ≤ es.length) : classifyWith txt es = .seq (es.map txt) := by
  match es, h with
  | a :: b :: t, _ => exact classifyWith_pair txt a b t

/-- C1: for every selector map and parseable markup, `scrape_basic_data`
returns a record containing every declared field in order, and each field's
value is determined by its selector's match count: zero matches give `None`,
one match gives that element's whitespace-trimmed text as a scalar, and two or
more matches give the ordered sequence of the matches' trimmed texts, with
length equal to the match count. -/
theorem scrape_basic_data_field_contract
    (select : String → List Elem) (selectors : List (String × String))
    (hnd : (selectors.map Prod.fst).Nodup)
    (field sel : String) (hmem : (field, sel) ∈ selectors) :
    ∃ r, scrape_basic_data (.ok select) selectors = some r
      ∧ r.map Prod.fst = selectors.map Prod.fst
      ∧ ∃ v, r.lookup field = some v
        ∧ (select sel = [] → v = .absent)
        ∧ (∀ e, select sel = [e] → v = .scalar (getTextStrip e))
        ∧ (2 ≤ (select sel).length →
            v = .seq ((select sel).map getTextStrip)
            ∧ ((select sel).map getTextStrip).length = (select sel).length) := by
  refine ⟨_, rfl, ?_, ?_⟩
  · rw [List.map_map]; rfl
  · refine ⟨classifyWith getTextStrip (select sel), ?_, ?_, ?_, ?_⟩
    · exact lookup_map_pairs (fun _ s => classifyWith getTextStrip (select s))
        selectors hnd field sel hmem
    · intro h; rw [h]; rfl
    · intro e h; rw [h]; rfl
    · intro h
      exact ⟨classifyWith_of_two_le getTextStrip _ h, List.length_map _ _⟩

/-- Witness for C1 at a concrete page with a zero-match, one-match and
two-match selector. -/
theorem scrape_basic_data_field_contract_witness :
    ∃ r, scrape_basic_data
        (.ok fun s => if s = "h1" then [⟨[" Title "]⟩]
          else if s = "p" then [⟨["a"]⟩, ⟨[" b "]⟩] else [])
        [("title", "h1"), ("paras", "p"), ("missing", "div")] = some r
      ∧ r.map Prod.fst = [("title", "h1"), ("paras", "p"), ("missing", "div")].map Prod.fst
      ∧ ∃ v, r.lookup "paras" = some v
        ∧ ((fun s => if s = "h1" then [(⟨[" Title "]⟩ : Elem)]
              else if s = "p" then [⟨["a"]⟩, ⟨[" b "]⟩] else []) "p" = [] → v = .absent)
        ∧ (∀ e, (fun s => if s = "h1" then [(⟨[" Title "]⟩ : Elem)]
              else if s = "p" then [⟨["a"]⟩, ⟨[" b "]⟩] else []) "p" = [e] →
            v = .scalar (getTextStrip e))
        ∧ (2 ≤ ((fun s => if s = "h1" then [(⟨[" Title "]⟩ : Elem)]
              else if s = "p" then [⟨["a"]⟩, ⟨[" b "]⟩] else []) "p").length →
            v = .seq (((fun s => if s = "h1" then [(⟨[" Title "]⟩ : Elem)]
              else if s = "p" then [⟨["a"]⟩, ⟨[" b "]⟩] else []) "p").map getTextStrip)
            ∧ (((fun s => if s = "h1" then [(⟨[" Title "]⟩ : Elem)]
              else if s = "p" then [⟨["a"]⟩, ⟨[" b "]⟩] else []) "p").map getTextStrip).length
              = ((fun s => if s = "h1" then [(⟨[" Title "]⟩ : Elem)]
              else if s = "p" then [⟨["a"]⟩, ⟨[" b "]⟩] else []) "p").length) :=
  scrape_basic_data_field_contract
    (fun s => if s = "h1" then [⟨[" Title "]⟩]
      else if s = "p" then [⟨["a"]⟩, ⟨[" b "]⟩] else [])
    [("title", "h1"), ("paras", "p"), ("missing", "div")]
    (by decide) "paras" "p" (by decide)

end Scraper

namespace Scraper

/-- C8: for every `scrape_dynamic_content` call, a timeout waiting for
`wait_selector` fails the whole call (`None`), while otherwise each field
obeys the same single/multiple/absent contract as the static extractor — zero
matches give `None`, one match gives the element's trimmed text, several give
the ordered sequence of trimmed texts — except that an extraction error on an
individual field degrades that field to `None` instead of failing the call. -/
theorem scrape_dynamic_content_contract
    (page : DynPage) (data_selectors : List (String × String))
    (hnd : (data_selectors.map Prod.fst).Nodup)
    (field sel : String) (hmem : (field, sel) ∈ data_selectors) :
    (page.waitOk = false → scrape_dynamic_content page data_selectors = none)
    ∧ (page.navOk = true → page.waitOk = true →
        ∃ r, scrape_dynamic_content page data_selectors = some r
          ∧ r.map Prod.fst = data_selectors.map Prod.fst
          ∧ ∃ v, r.lookup field = some v
            ∧ (page.find sel = .ok [] → v = .absent)
            ∧ (∀ e, page.find sel = .ok [e] → v = .scalar (seleniumText e))
            ∧ (∀ es, page.find sel = .ok es → 2 ≤ es.length →
                v = .seq (es.map seleniumText)
                ∧ (es.map seleniumText).length = es.length)
            ∧ (∀ msg, page.find sel = .error msg → v = .absent)) := by
  constructor
  · intro hw
    simp [scrape_dynamic_content, hw]
  · intro hn hw
    have hsome : scrape_dynamic_content page data_selectors =
        some (data_selectors.map fun fs => (fs.1, dynFieldValue (page.find fs.2))) := by
      simp [scrape_dynamic_content, hn, hw]
    refine ⟨_, hsome, by rw [List.map_map]; rfl,
      dynFieldValue (page.find sel), ?_, ?_, ?_, ?_, ?_⟩
    · exact lookup_map_pairs (fun _ s => dynFieldValue (page.find s))
        data_selectors hnd field sel hmem
    · intro h; rw [h]; rfl
    · intro e h; rw [h]; rfl
    · intro es h h2
      rw [h]
      exact ⟨classifyWith_of_two_le seleniumText es h2, List.length_map _ _⟩
    · intro msg h; rw [h]; rfl

/-- Witness for C8 at a concrete browser state with an erroring selector, a
two-match selector and a no-match selector. -/
theorem scrape_dynamic_content_contract_witness :
    (dynPageFx.waitOk = false → scrape_dynamic_content dynPageFx
        [("items", ".items"), ("bad", ".bad"), ("missing", "div")] = none)
    ∧ (dynPageFx.navOk = true → dynPageFx.waitOk = true →
        ∃ r, scrape_dynamic_content dynPageFx
            [("items", ".items"), ("bad", ".bad"), ("missing", "div")] = some r
          ∧ r.map Prod.fst =
              [("items", ".items"), ("bad", ".bad"), ("missing", "div")].map Prod.fst
          ∧ ∃ v, r.lookup "items" = some v
            ∧ (dynPageFx.find ".items" = .ok [] → v = .absent)
            ∧ (∀ e, dynPageFx.find ".items" = .ok [e] → v = .scalar (seleniumText e))
            ∧ (∀ es, dynPageFx.find ".items" = .ok es → 2 ≤ es.length →
                v = .seq (es.map seleniumText)
                ∧ (es.map seleniumText).length = es.length)
            ∧ (∀ msg, dynPageFx.find ".items" = .error msg → v = .absent)) :=
  scrape_dynamic_content_contract dynPageFx
    [("items", ".items"), ("bad", ".bad"), ("missing", "div")]
    (by decide) "items" ".items" (by decide)

/-- C2: the pipeline processes URLs strictly in order; a per-URL extractor
failure is skipped and the remaining URLs are still processed, so a run over
`[A, B, C]` where B fails yields exactly the records for A and C in that
relative order; every record is stamped with its source URL and the
extraction-time timestamp before being appended, and the run's records are
appended to the pipeline's ResultSet. -/
theorem scrape_multiple_pages_partial_failure
    (f : String → Except String (Option Record)) (now : Nat → String)
    (A B C : String) (rA rC : Record) (err : String)
    (hA : f A = .ok (some rA)) (hAne : rA ≠ [])
    (hB : f B = .error err)
    (hC : f C = .ok (some rC)) (hCne : rC ≠ []) :
    scrape_multiple_pages f now [A, B, C] =
      [stampRecord rA A (now 1), stampRecord rC C (now 3)]
    ∧ ∀ prev, extendResults prev (scrape_multiple_pages f now [A, B, C]) =
        prev ++ [stampRecord rA A (now 1), stampRecord rC C (now 3)] := by
  have hAe : rA.isEmpty = false := by
    cases rA with
    | nil => exact absurd rfl hAne
    | cons a t => rfl
  have hCe : rC.isEmpty = false := by
    cases rC with
    | nil => exact absurd rfl hCne
    | cons a t => rfl
  have h1 : scrape_multiple_pages f now [A, B, C] =
      [stampRecord rA A (now 1), stampRecord rC C (now 3)] := by
    simp [scrape_multiple_pages, scrapePagesFrom, hA, hB, hC, hAe, hCe]
  exact ⟨h1, fun prev => by rw [h1]; rfl⟩

/-- Witness for C2 on a concrete scraper function failing exactly on URL
`"B"`. -/
theorem scrape_multiple_pages_partial_failure_witness :
    scrape_multiple_pages scraperFnFx nowFx ["A", "B", "C"] =
      [stampRecord [("title", .scalar "first")] "A" (nowFx 1),
        stampRecord [("title", .scalar "third")] "C" (nowFx 3)]
    ∧ ∀ prev, extendResults prev (scrape_multiple_pages scraperFnFx nowFx ["A", "B", "C"]) =
        prev ++ [stampRecord [("title", .scalar "first")] "A" (nowFx 1),
          stampRecord [("title", .scalar "third")] "C" (nowFx 3)] :=
  scrape_multiple_pages_partial_failure scraperFnFx nowFx "A" "B" "C"
    [("title", .scalar "first")] [("title", .scalar "third")] "connection error"
    rfl (by decide) rfl rfl (by decide)

/-- C3: against a URL whose fetch always fails at the transport level,
`get_page` with `retries = 3` performs exactly 3 (hence at most 3) attempts,
sleeps `2 ^ attempt` seconds after each failed non-final attempt (0-based:
`2 ^ 0` then `2 ^ 1`), and the failure of the final attempt propagates to the
caller. -/
theorem get_page_transport_failure_retries
    (net : Nat → NetResult) (hfail : ∀ n, ∃ e, net n = .transportError e) :
    (get_page net 3).attempts = 3
    ∧ (get_page net 3).backoffSleeps = [2 ^ 0, 2 ^ 1]
    ∧ ∃ e, (get_page net 3).result = .error e ∧ net 2 = .transportError e := by
  obtain ⟨e0, h0⟩ := hfail 0
  obtain ⟨e1, h1⟩ := hfail 1
  obtain ⟨e2, h2⟩ := hfail 2
  have hr : List.range 3 = [0, 1, 2] := rfl
  have htrace : get_page net 3 = ⟨3, 3, [2 ^ 0, 2 ^ 1], .error e2⟩ := by
    simp [get_page, hr, getPageLoop, h0, h1, h2]
  rw [htrace]
  exact ⟨rfl, rfl, e2, rfl, h2⟩

/-- Witness for C3 on a network that refuses every connection. -/
theorem get_page_transport_failure_retries_witness :
    (get_page netFailFx 3).attempts = 3
    ∧ (get_page netFailFx 3).backoffSleeps = [2 ^ 0, 2 ^ 1]
    ∧ ∃ e, (get_page netFailFx 3).result = .error e
      ∧ netFailFx 2 = .transportError e :=
  get_page_transport_failure_retries netFailFx (fun _ => ⟨"connection refused", rfl⟩)

/-- C4 counterexample: an HTTP 304 response has a non-2xx status, yet
`get_page` returns it to the caller on the first attempt — no retry, no
backoff — because `requests.Response.raise_for_status()` only raises for
status codes in 400..599. -/
theorem get_page_returns_304_counterexample :
    (get_page net304Fx 3).result = .ok (some ⟨304, ""⟩)
    ∧ (get_page net304Fx 3).attempts = 1
    ∧ (get_page net304Fx 3).backoffSleeps = [] := by decide

/-- C4 (amended): `get_page` treats a response as a failure participating in
the same retry-with-backoff policy as transport errors exactly when its
status code is in 400..599 (the range `raise_for_status` raises for); a
response with any status outside that range — the 2xx successes but also
non-2xx statuses such as 1xx and 3xx — is returned to the caller on that
attempt. -/
theorem get_page_http_error_retry_policy
    (net net2 : Nat → NetResult) (r : Response)
    (hfail : ∀ n, ∃ s, net n = .response s ∧ 400 ≤ s.status ∧ s.status < 600)
    (hok : net2 0 = .response r) (hr : ¬(400 ≤ r.status ∧ r.status < 600)) :
    ((get_page net 3).attempts = 3
      ∧ (get_page net 3).backoffSleeps = [2 ^ 0, 2 ^ 1]
      ∧ ∃ e, (get_page net 3).result = .error e)
    ∧ (get_page net2 3).attempts = 1
    ∧ (get_page net2 3).result = .ok (some r) := by
  obtain ⟨s0, h0, hs0⟩ := hfail 0
  obtain ⟨s1, h1, hs1⟩ := hfail 1
  obtain ⟨s2, h2, hs2⟩ := hfail 2
  have hrange : List.range 3 = [0, 1, 2] := rfl
  have rs0 : raise_for_status s0 = some ("HTTP Error " ++ toString s0.status) := if_pos hs0
  have rs1 : raise_for_status s1 = some ("HTTP Error " ++ toString s1.status) := if_pos hs1
  have rs2 : raise_for_status s2 = some ("HTTP Error " ++ toString s2.status) := if_pos hs2
  have rsr : raise_for_status r = none := if_neg hr
  constructor
  · have htrace : get_page net 3 =
        ⟨3, 3, [2 ^ 0, 2 ^ 1], .error ("HTTP Error " ++ toString s2.status)⟩ := by
      simp [get_page, hrange, getPageLoop, h0, h1, h2, rs0, rs1, rs2]
    rw [htrace]
    exact ⟨rfl, rfl, _, rfl⟩
  · have htrace : get_page net2 3 = ⟨1, 1, [], .ok (some r)⟩ := by
      simp [get_page, hrange, getPageLoop, hok, rsr]
    rw [htrace]
    exact ⟨rfl, rfl⟩

/-- Witness for the amended C4: a network always answering 500 is retried
with backoff; a network answering 304 has the response returned at once. -/
theorem get_page_http_error_retry_policy_witness :
    ((get_page net500Fx 3).attempts = 3
      ∧ (get_page net500Fx 3).backoffSleeps = [2 ^ 0, 2 ^ 1]
      ∧ ∃ e, (get_page net500Fx 3).result = .error e)
    ∧ (get_page net304Fx 3).attempts = 1
    ∧ (get_page net304Fx 3).result = .ok (some ⟨304, ""⟩) :=
  get_page_http_error_retry_policy net500Fx net304Fx ⟨304, ""⟩
    (fun _ => ⟨⟨500, "oops"⟩, rfl, by decide, by decide⟩) rfl (by decide)

end Scraper

namespace Scraper

theorem tableDataRows_mem_ne_nil (rows : List (List Elem)) (r : List String)
    (h : r ∈ tableDataRows rows) : r ≠ [] := by
  obtain ⟨r0, _, hfr⟩ := List.mem_filterMap.mp h
  have hfr' : (if (r0.map getTextStrip).isEmpty then none
      else some (r0.map getTextStrip)) = some r := hfr
  by_cases he : (r0.map getTextStrip).isEmpty
  · rw [if_pos he] at hfr'
    exact Option.noConfusion hfr'
  · rw [if_neg he] at hfr'
    have hmap := Option.some_injective _ hfr'
    intro hnil
    exact he (by rw [hmap, hnil]; rfl)

theorem tableDataRows_ne_nil_exists (rows : List (List Elem))
    (h : tableDataRows rows ≠ []) : ∃ r, r ∈ rows.drop 1 ∧ r ≠ [] := by
  obtain ⟨rd, hrd⟩ := List.exists_mem_of_ne_nil _ h
  obtain ⟨r0, hr0, hfr⟩ := List.mem_filterMap.mp hrd
  have hfr' : (if (r0.map getTextStrip).isEmpty then none
      else some (r0.map getTextStrip)) = some rd := hfr
  refine ⟨r0, hr0, ?_⟩
  intro hnil
  rw [hnil] at hfr'
  simp at hfr'

/-- C5: `scrape_table` returns `None` unless the selected table has both a
non-empty header (first row with at least one cell) and at least one
subsequent row with at least one cell; rows yielding zero cells are dropped
(every returned data row is non-empty); the header `["Name","Price"]` table
with two data rows yields exactly that header and exactly those 2 data rows,
while a header-only table yields `None`. -/
theorem scrape_table_contract :
    (∀ page res, scrape_table page = some res →
      ∃ t hd rest, page = .ok (some t) ∧ t.rows = hd :: rest
        ∧ hd ≠ [] ∧ (∃ r, r ∈ rest ∧ r ≠ [])
        ∧ ∀ r, r ∈ res.dataRows → r ≠ [])
    ∧ scrape_table (.ok (some tableGoodFx)) =
        some ⟨["Name", "Price"], [["Apple", "1.00"], ["Bread", "2.50"]]⟩
    ∧ scrape_table (.ok (some tableHeaderOnlyFx)) = none := by
  refine ⟨?_, by decide, by decide⟩
  intro page res h
  cases page with
  | error e => exact absurd h (by simp [scrape_table])
  | ok p =>
    cases p with
    | none => exact absurd h (by simp [scrape_table])
    | some t =>
      simp only [scrape_table] at h
      split at h
      · exact Option.noConfusion h
      · rename_i hcond
        simp only [Bool.or_eq_true, not_or, Bool.not_eq_true] at hcond
        obtain ⟨hA, hB⟩ := hcond
        simp only [mkDataFrame] at h
        split at h
        · replace h := Option.some_injective _ h
          cases htr : t.rows with
          | nil =>
            rw [htr] at hA
            simp [tableHeaders] at hA
          | cons hd rest =>
            refine ⟨t, hd, rest, rfl, htr, ?_, ?_, ?_⟩
            · intro hnil
              rw [htr, hnil] at hA
              simp [tableHeaders] at hA
            · have hne : tableDataRows t.rows ≠ [] := by
                intro hn
                rw [hn] at hB
                simp at hB
              obtain ⟨r, hr, hrne⟩ := tableDataRows_ne_nil_exists t.rows hne
              rw [htr] at hr
              exact ⟨r, by simpa using hr, hrne⟩
            · intro r hr
              rw [← h] at hr
              exact tableDataRows_mem_ne_nil t.rows r hr
        · exact Option.noConfusion h

/-- Witness for C5: the universally-quantified part of the contract applied
to the concrete good table. -/
theorem scrape_table_contract_witness :
    ∃ t hd rest,
      (Except.ok (some tableGoodFx) : Except String (Option HTMLTable)) = .ok (some t)
      ∧ t.rows = hd :: rest ∧ hd ≠ [] ∧ (∃ r, r ∈ rest ∧ r ≠ [])
      ∧ ∀ r, r ∈ (⟨["Name", "Price"],
          [["Apple", "1.00"], ["Bread", "2.50"]]⟩ : TableResult).dataRows → r ≠ [] :=
  scrape_table_contract.1 (.ok (some tableGoodFx))
    ⟨["Name", "Price"], [["Apple", "1.00"], ["Bread", "2.50"]]⟩ (by decide)

/-- C6: `scrape_links` emits a `{url, text, title}` record for exactly the
matched anchors with a non-empty `href` (same count, and every emitted record
arises from such an anchor); anchors without an `href` are skipped and never
emitted as partial records; and with `base_url = "https://x.com/dir/"` a
relative `href = "page.html"` resolves to
`"https://x.com/dir/page.html"`. -/
theorem scrape_links_contract :
    (∀ anchors base_url,
      (scrape_links (.ok anchors) base_url).length =
        (anchors.filter fun a => !(a.href.getD "" == "")).length)
    ∧ (∀ anchors base_url lr, lr ∈ scrape_links (.ok anchors) base_url →
        ∃ a h, a ∈ anchors ∧ a.href = some h ∧ h ≠ ""
          ∧ lr.text = getTextStrip ⟨a.texts⟩ ∧ lr.title = a.title.getD ""
          ∧ lr.url = (match base_url with
              | some b => if b = "" then h else urljoin b h
              | none => h))
    ∧ (∀ texts title base_url,
        scrape_links (.ok [⟨none, texts, title⟩]) base_url = [])
    ∧ scrape_links (.ok anchorsFx) (some "https://x.com/dir/") =
        [⟨"https://x.com/dir/page.html", "Link", ""⟩] := by
  refine ⟨?_, ?_, ?_, by decide⟩
  · intro anchors base_url
    simp only [scrape_links]
    induction anchors with
    | nil => rfl
    | cons a tl ih =>
      rw [List.filterMap_cons, List.filter_cons]
      cases ha : a.href with
      | none => simpa [linkOfAnchor, ha] using ih
      | some h =>
        by_cases hh : h = ""
        · simpa [linkOfAnchor, ha, hh] using ih
        · have hbeq : (h == "") = false := beq_eq_false_iff_ne.mpr hh
          simp [linkOfAnchor, ha, hh, hbeq, ih]
  · intro anchors base_url lr hmem
    simp only [scrape_links] at hmem
    obtain ⟨a, ha, hfa⟩ := List.mem_filterMap.mp hmem
    cases hhr : a.href with
    | none =>
      simp only [linkOfAnchor, hhr] at hfa
      exact Option.noConfusion hfa
    | some h =>
      simp only [linkOfAnchor, hhr] at hfa
      by_cases hh : h = ""
      · rw [if_pos hh] at hfa
        exact Option.noConfusion hfa
      · rw [if_neg hh] at hfa
        have hlr := Option.some_injective _ hfa
        refine ⟨a, h, ha, hhr, hh, ?_, ?_, ?_⟩
        · exact congrArg LinkRecord.text hlr.symm
        · exact congrArg LinkRecord.title hlr.symm
        · exact congrArg LinkRecord.url hlr.symm
  · intro texts title base_url
    rfl

/-- Witness for C6: the emitted-record characterisation applied to the
concrete record produced from the relative-link anchor fixture. -/
theorem scrape_links_contract_witness :
    ∃ a h, a ∈ anchorsFx ∧ a.href = some h ∧ h ≠ ""
      ∧ (⟨"https://x.com/dir/page.html", "Link", ""⟩ : LinkRecord).text =
          getTextStrip ⟨a.texts⟩
      ∧ (⟨"https://x.com/dir/page.html", "Link", ""⟩ : LinkRecord).title = a.title.getD ""
      ∧ (⟨"https://x.com/dir/page.html", "Link", ""⟩ : LinkRecord).url =
          (match some "https://x.com/dir/" with
            | some b => if b = "" then h else urljoin b h
            | none => h) :=
  scrape_links_contract.2.1 anchorsFx (some "https://x.com/dir/")
    ⟨"https://x.com/dir/page.html", "Link", ""⟩ (by decide)

/-- C7 counterexample: `save_to_json` on an empty result set is not a no-op —
`json.dump` runs unconditionally, so a file is created containing the empty
collection. -/
theorem save_to_json_empty_writes_counterexample :
    save_to_json "scraped_data" "results.json" [] =
      some ("scraped_data/results.json", []) := rfl

/-- C7 (amended): attempting to serialize an empty result set with
`save_to_csv` is reported and is a no-op (no file is created or written), but
`save_to_json` always creates and writes its output file, including for an
empty result set (which it serializes as the empty collection). -/
theorem save_empty_result_set (output_dir filename : String) :
    save_to_csv output_dir filename [] = none
    ∧ ∀ data, save_to_json output_dir filename data =
        some (output_dir ++ "/" ++ filename, data) :=
  ⟨rfl, fun _ => rfl⟩

end Scraper

namespace Grocery

theorem processSaleLoop_append (l1 l2 : List (String × Int)) :
    ∀ (products : List (String × Product)) (total : ℚ) (acc : List SaleItem),
      processSaleLoop products (l1 ++ l2) total acc =
        match processSaleLoop products l1 total acc with
        | (ps, .ok (t, a)) => processSaleLoop ps l2 t a
        | (ps, .error e) => (ps, .error e) := by
  induction l1 with
  | nil =>
    intro products total acc
    rfl
  | cons hd tl ih =>
    intro products total acc
    obtain ⟨pid, qty⟩ := hd
    simp only [List.cons_append, processSaleLoop]
    cases lookupProduct products pid with
    | none => rfl
    | some p =>
      dsimp only
      by_cases hq : qty ≤ p.stock
      · rw [if_pos hq, if_pos hq]
        exact ih _ _ _
      · rw [if_neg hq, if_neg hq]

/-- C9: `process_sale` is not atomic on error — when the first failing item
sits at position `k` (unknown product id, or quantity exceeding the stock the
product has by then), the call raises `ValueError`, appends no sale record and
never reaches `save_data`, yet the stock decrements already applied while
processing the items before position `k` remain in effect in the in-memory
product state. -/
theorem process_sale_not_atomic
    (shop : Shop) (now : String) (items : List (String × Int)) (k : Nat)
    (ps' : List (String × Product)) (t' : ℚ) (acc' : List SaleItem)
    (pid : String) (qty : Int) (rest : List (String × Int))
    (hpre : processSaleLoop shop.products (items.take k) 0 [] = (ps', .ok (t', acc')))
    (hk : items.drop k = (pid, qty) :: rest)
    (hfail : lookupProduct ps' pid = none
      ∨ ∃ p, lookupProduct ps' pid = some p ∧ p.stock < qty) :
    ∃ e, process_sale shop now items = ⟨⟨ps', shop.sales_history⟩, .error e, false⟩ := by
  have hsplit : items = items.take k ++ items.drop k := (List.take_append_drop k items).symm
  have hrun : ∀ e2, processSaleLoop ps' ((pid, qty) :: rest) t' acc' = (ps', .error e2) →
      processSaleLoop shop.products items 0 [] = (ps', .error e2) := by
    intro e2 hstep
    conv_lhs => rw [hsplit]
    rw [processSaleLoop_append, hpre]
    show processSaleLoop ps' (items.drop k) t' acc' = _
    rw [hk, hstep]
  rcases hfail with hnone | ⟨p, hp, hlt⟩
  · refine ⟨"Product " ++ pid ++ " not found", ?_⟩
    have hstep : processSaleLoop ps' ((pid, qty) :: rest) t' acc' =
        (ps', .error ("Product " ++ pid ++ " not found")) := by
      simp only [processSaleLoop, hnone]
    have hloop := hrun _ hstep
    simp only [process_sale, hloop]
  · refine ⟨"Insufficient stock for " ++ p.name, ?_⟩
    have hq : ¬qty ≤ p.stock := not_le.mpr hlt
    have hstep : processSaleLoop ps' ((pid, qty) :: rest) t' acc' =
        (ps', .error ("Insufficient stock for " ++ p.name)) := by
      simp only [processSaleLoop, hp]
      rw [if_neg hq]
    have hloop := hrun _ hstep
    simp only [process_sale, hloop]

/-- Witness for C9: selling 3 apples (stock 10) and then an unknown product
raises, saves nothing, appends nothing — but the apples' stock stays
decremented to 7. -/
theorem process_sale_not_atomic_witness :
    ∃ e, process_sale shopFx "2024-06-01T12:00:00" [("p1", 3), ("zz", 1)] =
      ⟨⟨[("p1", ⟨"p1", "Apples", 2, 7, "Fruit"⟩)], []⟩, .error e, false⟩ :=
  process_sale_not_atomic shopFx "2024-06-01T12:00:00" [("p1", 3), ("zz", 1)] 1
    [("p1", ⟨"p1", "Apples", 2, 7, "Fruit"⟩)]
    (0 + 2 * ((3 : Int) : ℚ))
    [⟨"Apples", 3, 2, 2 * ((3 : Int) : ℚ)⟩]
    "zz" 1 [] rfl rfl (Or.inl rfl)

end Grocery

namespace GroceryLoad

theorem from_dict_missing_key (rfs : List (String × JValue))
    (h : jGet rfs "id" = none ∨ jGet rfs "name" = none ∨ jGet rfs "price" = none
      ∨ jGet rfs "stock" = none ∨ jGet rfs "category" = none) :
    from_dict (.obj rfs) = none := by
  cases h1 : jGet rfs "id" <;> cases h2 : jGet rfs "name" <;>
    cases h3 : jGet rfs "price" <;> cases h4 : jGet rfs "stock" <;>
      cases h5 : jGet rfs "category" <;>
        simp_all [from_dict]

theorem loadProducts_none_of_mem (pfs : List (String × JValue)) (pid : String) (pv : JValue)
    (hmem : (pid, pv) ∈ pfs) (hfd : from_dict pv = none) :
    loadProducts pfs = none := by
  induction pfs with
  | nil => cases hmem
  | cons hd tl ih =>
    rcases List.mem_cons.mp hmem with hh | hh
    · have hsnd : hd.2 = pv := by rw [← hh]
      simp [loadProducts, hsnd, hfd]
    · have htl := ih hh
      cases hfd2 : from_dict hd.2 with
      | none => simp [loadProducts, hfd2]
      | some pr => simp [loadProducts, hfd2, htl]

theorem extractShopData_none_of_bad_product
    (fs pfs : List (String × JValue)) (pid : String) (pv : JValue)
    (hp : jGet fs "products" = some (.obj pfs))
    (hmem : (pid, pv) ∈ pfs) (hfd : from_dict pv = none) :
    extractShopData (.obj fs) = none := by
  simp [extractShopData, hp, loadProducts_none_of_mem pfs pid pv hmem hfd]

/-- C10: construction never fails because of the persisted data file — for a
missing file, an unreadable file, malformed JSON, or a products record missing
a required key, `load_data` does not raise and leaves the shop with an empty
products mapping and an empty sales history. -/
theorem load_data_bad_file_resets :
    load_data .missing = ⟨[], .arr []⟩
    ∧ load_data .readFailure = ⟨[], .arr []⟩
    ∧ load_data .parseFailure = ⟨[], .arr []⟩
    ∧ ∀ fs pfs pid pv, jGet fs "products" = some (.obj pfs) →
        (pid, pv) ∈ pfs →
        (∀ rfs, pv = .obj rfs →
          jGet rfs "id" = none ∨ jGet rfs "name" = none ∨ jGet rfs "price" = none
            ∨ jGet rfs "stock" = none ∨ jGet rfs "category" = none) →
        load_data (.parsed (.obj fs)) = ⟨[], .arr []⟩ := by
  refine ⟨rfl, rfl, rfl, ?_⟩
  intro fs pfs pid pv hp hmem hkeys
  have hfd : from_dict pv = none := by
    cases pv with
    | obj rfs => exact from_dict_missing_key rfs (hkeys rfs rfl)
    | null => rfl
    | bool b => rfl
    | num q => rfl
    | str s => rfl
    | arr xs => rfl
  simp [load_data, extractShopData_none_of_bad_product fs pfs pid pv hp hmem hfd]

/-- Witness for C10: loading a well-formed JSON file whose single product
record lacks the `name` key leaves the shop empty. -/
theorem load_data_bad_file_resets_witness :
    load_data (.parsed (.obj badFileFieldsFx)) = ⟨[], .arr []⟩ :=
  load_data_bad_file_resets.2.2.2 badFileFieldsFx [("x", .obj [("id", .str "x")])]
    "x" (.obj [("id", .str "x")]) rfl (List.mem_singleton.mpr rfl)
    (fun rfs h => by
      cases h
      exact Or.inr (Or.inl rfl))

end GroceryLoad
